import Mathlib

/-!
Shallow embedding of the file-organizer engine of
`src/automation/file_organizer.py` (class `FileOrganizer`).

File names are Lean `String`s.  The filesystem visible to one run is a
root directory holding regular files plus category subdirectories, each
holding its own files.  Python's `pathlib` extension splitting
(`Path.suffix` / `Path.stem`) is reproduced exactly, including its
treatment of leading dots and trailing dots.
-/

/-- Index of the last '.' in a list of characters (Python `str.rfind('.')`
restricted to the found case). -/
def lastDotIdx : List Char → Option Nat
  | [] => none
  | c :: t =>
    match lastDotIdx t with
    | some j => some (j + 1)
    | none => if c = '.' then some 0 else none

/-- Python `pathlib.PurePath.suffix` of a bare file name: the substring from
the last dot on, provided that dot is neither the first nor the last
character; otherwise the empty string. -/
def pySuffix (name : String) : String :=
  match lastDotIdx name.data with
  | some i => if 0 < i ∧ i < name.data.length - 1 then String.mk (name.data.drop i) else ""
  | none => ""

/-- Python `pathlib.PurePath.stem` of a bare file name: the part before the
suffix, or the whole name when there is no suffix. -/
def pyStem (name : String) : String :=
  match lastDotIdx name.data with
  | some i => if 0 < i ∧ i < name.data.length - 1 then String.mk (name.data.take i) else name
  | none => name

/-- The class attribute `FileOrganizer.CATEGORIES`, in its declaration
order (Python 3.7+ dicts preserve insertion order). -/
def CATEGORIES : List (String × List String) :=
  [("Images", [".jpg", ".jpeg", ".png", ".gif", ".bmp", ".svg", ".webp"]),
   ("Documents", [".pdf", ".doc", ".docx", ".txt", ".xlsx", ".pptx", ".odt"]),
   ("Videos", [".mp4", ".avi", ".mkv", ".mov", ".wmv", ".flv", ".webm"]),
   ("Audio", [".mp3", ".wav", ".flac", ".aac", ".ogg", ".wma"]),
   ("Archives", [".zip", ".rar", ".7z", ".tar", ".gz", ".bz2"]),
   ("Code", [".py", ".js", ".html", ".css", ".java", ".cpp", ".c", ".h"]),
   ("Executables", [".exe", ".msi", ".apk", ".app", ".deb", ".rpm"])]

/-- The `for category, extensions in self.CATEGORIES.items()` loop body of
`FileOrganizer.get_category`: return the first category whose extension
list contains `ext`, else `Others`. -/
def findCat : List (String × List String) → String → String
  | [], _ => "Others"
  | (cat, exts) :: rest, ext => if ext ∈ exts then cat else findCat rest ext

/-- Python `str.lower()`: lower-case every character (character-wise, as
`String.toLower` does). -/
def pyLower (s : String) : String :=
  String.mk (s.data.map Char.toLower)

/-- `FileOrganizer.get_category`: `extension = file_path.suffix.lower()`,
then first-match lookup in `CATEGORIES`, falling back to `'Others'`. -/
def get_category (name : String) : String :=
  findCat CATEGORIES (pyLower (pySuffix name))

/-- The statistics record `self.stats = {'moved': 0, 'skipped': 0, 'errors': 0}`. -/
structure Stats where
  moved : Nat
  skipped : Nat
  errors : Nat
deriving DecidableEq

/-- The initial statistics set by `FileOrganizer.__init__`. -/
def initStats : Stats := ⟨0, 0, 0⟩

/-- State of the source directory: its regular files (in `iterdir` order,
directories filtered out by `is_file`) and its subdirectories with their
files. -/
structure FS where
  rootFiles : List String
  subdirs : List (String × List String)
deriving DecidableEq

/-- Existence check for a category subdirectory. -/
def FS.hasDir (fs : FS) (d : String) : Bool :=
  fs.subdirs.any (fun p => p.1 == d)

/-- The files currently inside subdirectory `d` (empty when `d` does not
exist). `destination.exists()` is membership here. -/
def FS.dirFiles (fs : FS) (d : String) : List String :=
  match fs.subdirs.find? (fun p => p.1 == d) with
  | some p => p.2
  | none => []

/-- `category_dir.mkdir(exist_ok=True)`: create the subdirectory when it is
absent, do nothing when present. -/
def FS.mkdir (fs : FS) (d : String) : FS :=
  if fs.hasDir d then fs else { fs with subdirs := fs.subdirs ++ [(d, [])] }

/-- `shutil.move(str(file_path), str(destination))` for a root file moving
into subdirectory `d` under the (possibly renamed) name `dest`. -/
def FS.moveFromRoot (fs : FS) (name d dest : String) : FS :=
  { rootFiles := fs.rootFiles.erase name,
    subdirs := fs.subdirs.map (fun p => if p.1 == d then (p.1, p.2 ++ [dest]) else p) }

/-- The candidate name `f"{base}_{counter}{ext}"` built by the collision
loop. -/
def mkCand (base ext : String) (n : Nat) : String :=
  base ++ "_" ++ Nat.repr n ++ ext

/-- Greatest length of a member of a list of strings. -/
def strMaxLen (l : List String) : Nat :=
  l.foldr (fun s m => max s.length m) 0

/-- Fuel that provably suffices for the collision loop: any counter at or
beyond this bound yields a candidate longer than every existing name. -/
def freshBound (l : List String) : Nat :=
  10 ^ strMaxLen l

/-- The `while destination.exists(): destination = f"{base}_{counter}{ext}";
counter += 1` loop of `FileOrganizer.organize`, with explicit fuel (the
fuel passed by `destFor` is proven sufficient, so the loop always exits
through its guard exactly as the unbounded source loop does). -/
def collisionLoopF (existing : List String) (base ext : String) : Nat → Nat → String
  | counter, 0 => mkCand base ext counter
  | counter, fuel + 1 =>
    if mkCand base ext counter ∈ existing then
      collisionLoopF existing base ext (counter + 1) fuel
    else mkCand base ext counter

/-- Destination name chosen for root file `name` in commit mode: after
`category_dir.mkdir(exist_ok=True)`, if `destination.exists()` then run the
renaming loop with `base = destination.stem`, `ext = destination.suffix`,
`counter = 1`; otherwise keep the original name. -/
def destFor (fs : FS) (name : String) : String :=
  let category := get_category name
  let existing := (fs.mkdir category).dirFiles category
  if name ∈ existing then
    collisionLoopF existing (pyStem name) (pySuffix name) 1 (freshBound existing)
  else name

/-- Name of the organizer script itself, `Path(__file__).name`, which the
per-file loop skips. -/
def scriptName : String := "file_organizer.py"

/-- One iteration of the `for file_path in files` loop of
`FileOrganizer.organize`.  `dryRun` is `self.dry_run`; `ioFail name = true`
models the per-file filesystem operations of commit mode raising an
exception for that file (caught by the `except` clause, which increments
`errors` and continues). -/
def processFile (dryRun : Bool) (ioFail : String → Bool) (st : FS × Stats) (name : String) :
    FS × Stats :=
  if name = scriptName then st
  else if dryRun then (st.1, { st.2 with moved := st.2.moved + 1 })
  else if ioFail name then (st.1, { st.2 with errors := st.2.errors + 1 })
  else
    let category := get_category name
    ((st.1.mkdir category).moveFromRoot name category (destFor st.1 name),
     { st.2 with moved := st.2.moved + 1 })

/-- The fatal failure of `self.source_dir.iterdir()` when the source path
does not exist or is not a directory. -/
inductive RunError where
  | directoryNotFound
deriving DecidableEq

/-- Outcome of one completed run: final filesystem, final statistics, and
whether `_print_summary` was reached (the empty-directory branch returns
before it). -/
structure RunResult where
  fs : FS
  stats : Stats
  summaryPrinted : Bool
deriving DecidableEq

/-- `FileOrganizer.organize`: `none` as source models a missing or
non-directory path (where `iterdir` raises); otherwise scan root files,
return early when there are none, else fold the per-file loop over the
scanned list and reach the summary. -/
def organize (src : Option FS) (dryRun : Bool) (ioFail : String → Bool) :
    Except RunError RunResult :=
  match src with
  | none => .error .directoryNotFound
  | some fs =>
    let files := fs.rootFiles
    if files.isEmpty then .ok ⟨fs, initStats, false⟩
    else
      let st := files.foldl (processFile dryRun ioFail) (fs, initStats)
      .ok ⟨st.1, st.2, true⟩

example : get_category "a.JPG" = "Images" := by decide
example : get_category "a.txt" = "Others" → False := by decide
example : get_category "noext" = "Others" := by decide
example : get_category ".bashrc" = "Others" := by decide
example : pySuffix "a.tar.gz" = ".gz" ∧ pyStem "a.tar.gz" = "a.tar" := by decide
example : mkCand "a" ".txt" 3 = "a_3.txt" := by decide

/-! Helper lemmas shared by the claim theorems. -/

/-- Files of the scanned list that the loop counts: everything except the
organizer script itself. -/
def countMovable (l : List String) : Nat :=
  (l.filter (fun n => n ≠ scriptName)).length

theorem organize_some (fs : FS) (dryRun : Bool) (ioFail : String → Bool) :
    organize (some fs) dryRun ioFail =
      if fs.rootFiles.isEmpty then Except.ok ⟨fs, initStats, false⟩
      else
        Except.ok ⟨(fs.rootFiles.foldl (processFile dryRun ioFail) (fs, initStats)).1,
          (fs.rootFiles.foldl (processFile dryRun ioFail) (fs, initStats)).2, true⟩ := rfl

theorem processFile_script (dryRun : Bool) (ioFail : String → Bool) (st : FS × Stats) :
    processFile dryRun ioFail st scriptName = st := by
  simp [processFile]

theorem processFile_preview (ioFail : String → Bool) (st : FS × Stats) (name : String)
    (h : name ≠ scriptName) :
    processFile true ioFail st name = (st.1, { st.2 with moved := st.2.moved + 1 }) := by
  simp [processFile, h]

theorem processFile_commit_err (ioFail : String → Bool) (st : FS × Stats) (name : String)
    (h : name ≠ scriptName) (hf : ioFail name = true) :
    processFile false ioFail st name = (st.1, { st.2 with errors := st.2.errors + 1 }) := by
  simp [processFile, h, hf]

theorem processFile_commit_ok (ioFail : String → Bool) (st : FS × Stats) (name : String)
    (h : name ≠ scriptName) (hf : ioFail name = false) :
    processFile false ioFail st name =
      ((st.1.mkdir (get_category name)).moveFromRoot name (get_category name)
         (destFor st.1 name),
       { st.2 with moved := st.2.moved + 1 }) := by
  simp [processFile, h, hf]

theorem countMovable_script (t : List String) :
    countMovable (scriptName :: t) = countMovable t := by
  simp [countMovable]

theorem countMovable_cons {n : String} (t : List String) (h : n ≠ scriptName) :
    countMovable (n :: t) = countMovable t + 1 := by
  simp [countMovable, List.filter, h]

theorem foldl_preview (ioFail : String → Bool) (l : List String) :
    ∀ st : FS × Stats,
      (l.foldl (processFile true ioFail) st).1 = st.1 ∧
      (l.foldl (processFile true ioFail) st).2.moved = st.2.moved + countMovable l ∧
      (l.foldl (processFile true ioFail) st).2.skipped = st.2.skipped ∧
      (l.foldl (processFile true ioFail) st).2.errors = st.2.errors := by
  induction l with
  | nil => intro st; simp [countMovable]
  | cons n t ih =>
    intro st
    by_cases h : n = scriptName
    · subst h
      simpa [processFile_script, countMovable_script] using ih st
    · obtain ⟨h1, h2, h3, h4⟩ := ih (st.1, { st.2 with moved := st.2.moved + 1 })
      refine ⟨?_, ?_, ?_, ?_⟩
      all_goals simp [List.foldl_cons, processFile_preview ioFail st n h, h1, h2, h3, h4,
        countMovable_cons t h]
      all_goals omega

theorem foldl_skipped (dryRun : Bool) (ioFail : String → Bool) (l : List String) :
    ∀ st : FS × Stats,
      (l.foldl (processFile dryRun ioFail) st).2.skipped = st.2.skipped := by
  have hstep : ∀ (st : FS × Stats) (n : String),
      (processFile dryRun ioFail st n).2.skipped = st.2.skipped := by
    intro st n
    unfold processFile
    split
    · rfl
    · split
      · rfl
      · split <;> rfl
  induction l with
  | nil => intro st; rfl
  | cons n t ih =>
    intro st
    rw [List.foldl_cons, ih, hstep]

theorem foldl_commit_moved (ioFail : String → Bool) (l : List String)
    (hok : ∀ n ∈ l, ioFail n = false) :
    ∀ st : FS × Stats,
      (l.foldl (processFile false ioFail) st).2.moved = st.2.moved + countMovable l := by
  induction l with
  | nil => intro st; simp [countMovable]
  | cons n t ih =>
    intro st
    have hok' : ∀ m ∈ t, ioFail m = false := fun m hm => hok m (List.mem_cons_of_mem n hm)
    by_cases h : n = scriptName
    · subst h
      simpa [processFile_script, countMovable_script] using ih hok' st
    · rw [List.foldl_cons,
        processFile_commit_ok ioFail st n h (hok n (List.mem_cons_self n t)),
        ih hok', countMovable_cons t h]
      dsimp only
      omega

theorem FS.mkdir_rootFiles (fs : FS) (d : String) : (fs.mkdir d).rootFiles = fs.rootFiles := by
  unfold FS.mkdir
  split <;> rfl

theorem foldl_commit_empties (ioFail : String → Bool) :
    ∀ (l : List String) (fs : FS) (stats : Stats),
      fs.rootFiles = l → (∀ n ∈ l, n ≠ scriptName ∧ ioFail n = false) →
      ((l.foldl (processFile false ioFail) (fs, stats)).1).rootFiles = [] := by
  intro l
  induction l with
  | nil => intro fs stats hroot _; simpa using hroot
  | cons n t ih =>
    intro fs stats hroot hall
    obtain ⟨hn, hf⟩ := hall n (List.mem_cons_self n t)
    rw [List.foldl_cons, processFile_commit_ok ioFail (fs, stats) n hn hf]
    apply ih
    · show ((fs.mkdir (get_category n)).moveFromRoot n (get_category n)
        (destFor fs n)).rootFiles = t
      unfold FS.moveFromRoot
      rw [FS.mkdir_rootFiles, hroot, List.erase_cons_head]
    · exact fun m hm => hall m (List.mem_cons_of_mem n hm)

/-! Claim theorems. -/

theorem findCat_eq_find? (l : List (String × List String)) (ext : String) :
    findCat l ext = ((l.find? (fun p => decide (ext ∈ p.2))).map Prod.fst).getD "Others" := by
  induction l with
  | nil => rfl
  | cons p rest ih =>
    obtain ⟨cat, exts⟩ := p
    by_cases h : ext ∈ exts
    · simp [findCat, List.find?, h]
    · simp [findCat, List.find?, h, ih]

/-- C1: `get_category` returns the first category of `CATEGORIES`, in
declaration order, whose extension list contains the lower-cased extension
of the file name, and `Others` when no category matches — in particular for
names with no extension.  It is a total Lean function, hence side-effect
free and defined on every name. -/
theorem get_category_first_match (name : String) :
    get_category name =
      ((CATEGORIES.find? (fun p => decide (pyLower (pySuffix name) ∈ p.2))).map
        Prod.fst).getD "Others" ∧
    (pySuffix name = "" → get_category name = "Others") := by
  refine ⟨findCat_eq_find? CATEGORIES (pyLower (pySuffix name)), fun h => ?_⟩
  unfold get_category
  rw [h]
  decide

/-- C3: a preview run mutates nothing: the filesystem in the run's result
is exactly the filesystem it started from, for every source directory,
every set of input files, and every behavior of the fallible operations. -/
theorem organize_preview_no_mutation (fs : FS) (ioFail : String → Bool) :
    ∃ r : RunResult, organize (some fs) true ioFail = Except.ok r ∧ r.fs = fs := by
  rw [organize_some]
  by_cases h : fs.rootFiles.isEmpty
  · exact ⟨⟨fs, initStats, false⟩, by rw [if_pos h], rfl⟩
  · exact ⟨_, by rw [if_neg h], (foldl_preview ioFail fs.rootFiles (fs, initStats)).1⟩

/-- C4 (amended): a run on an existing source directory always runs to
completion with a result, in either mode and whatever the per-file
failures; the final summary is reached exactly when the scan found at
least one file — on an empty directory the code returns early, after the
no-files warning, without printing the statistics summary. -/
theorem organize_total_summary (fs : FS) (dryRun : Bool) (ioFail : String → Bool) :
    ∃ r : RunResult, organize (some fs) dryRun ioFail = Except.ok r ∧
      (r.summaryPrinted = true ↔ fs.rootFiles ≠ []) := by
  rw [organize_some]
  by_cases h : fs.rootFiles.isEmpty
  · refine ⟨⟨fs, initStats, false⟩, by rw [if_pos h], ?_⟩
    simp only [List.isEmpty_iff] at h
    simp [h]
  · refine ⟨_, by rw [if_neg h], ?_⟩
    simp only [List.isEmpty_iff] at h
    simp [h]

/-- C4 counterexample: on an existing but empty source directory, a commit
run completes but the summary line is never reached (`summaryPrinted =
false`), contradicting the claim that a summary is yielded even when the
directory contains no files. -/
theorem organize_empty_dir_no_summary :
    organize (some ⟨[], []⟩) false (fun _ => false) =
      Except.ok ⟨⟨[], []⟩, initStats, false⟩ ∧
    (⟨⟨[], []⟩, initStats, false⟩ : RunResult).summaryPrinted = false := by
  exact ⟨rfl, rfl⟩

/-- C5: when the source path does not exist or is not a directory, the run
fails at the scan itself, before any per-file work: it returns the fatal
`directoryNotFound` error, so no statistics, no partial scan and no
filesystem mutation are produced. -/
theorem organize_directory_not_found (dryRun : Bool) (ioFail : String → Bool) :
    organize none dryRun ioFail = Except.error RunError.directoryNotFound := rfl

/-- C9: the `skipped` counter is initialized to zero and no branch of the
per-file loop ever increments it, so every completed run, in either mode
and with any per-file failures, ends with `skipped = 0`. -/
theorem organize_skipped_zero :
    initStats.skipped = 0 ∧
    ∀ (fs : FS) (dryRun : Bool) (ioFail : String → Bool),
      ∃ r : RunResult, organize (some fs) dryRun ioFail = Except.ok r ∧
        r.stats.skipped = 0 := by
  refine ⟨rfl, fun fs dryRun ioFail => ?_⟩
  rw [organize_some]
  by_cases h : fs.rootFiles.isEmpty
  · exact ⟨⟨fs, initStats, false⟩, by rw [if_pos h], rfl⟩
  · exact ⟨_, by rw [if_neg h], foldl_skipped dryRun ioFail fs.rootFiles (fs, initStats)⟩

/-- C10: in preview mode the per-file body performs no filesystem
operation, so the exception path is unreachable: every preview run over an
existing source directory ends with `errors = 0` and an unchanged
filesystem, for every behavior of the fallible commit-mode operations. -/
theorem organize_preview_errors_zero (fs : FS) (ioFail : String → Bool) :
    ∃ r : RunResult, organize (some fs) true ioFail = Except.ok r ∧
      r.stats.errors = 0 ∧ r.fs = fs := by
  rw [organize_some]
  by_cases h : fs.rootFiles.isEmpty
  · exact ⟨⟨fs, initStats, false⟩, by rw [if_pos h], rfl, rfl⟩
  · refine ⟨_, by rw [if_neg h], ?_, (foldl_preview ioFail fs.rootFiles (fs, initStats)).1⟩
    exact (foldl_preview ioFail fs.rootFiles (fs, initStats)).2.2.2

/-! Length of decimal representations, used to bound the collision loop. -/

theorem toDigitsCore_len (b : Nat) (hb : 2 ≤ b) :
    ∀ (f n : Nat) (l : List Char), n < f →
      (Nat.toDigitsCore b f n l).length = Nat.log b n + 1 + l.length := by
  intro f
  induction f with
  | zero => intro n l h; exact absurd h (Nat.not_lt_zero n)
  | succ f ih =>
    intro n l h
    by_cases hdiv : n / b = 0
    · have hnb : n < b := by
        by_contra hge
        have := Nat.div_pos (by omega : b ≤ n) (by omega : 0 < b)
        omega
      have hlog : Nat.log b n = 0 := Nat.log_eq_zero_iff.mpr (Or.inl hnb)
      simp [Nat.toDigitsCore, hdiv, hlog]
      omega
    · have hbn : b ≤ n := by
        by_contra hlt
        exact hdiv (Nat.div_eq_of_lt (by omega))
      have hdivlt : n / b < n := Nat.div_lt_self (by omega) (by omega)
      have ihx := ih (n / b) (Nat.digitChar (n % b) :: l) (by omega)
      have hlog1 : 1 ≤ Nat.log b n := Nat.log_pos (by omega) hbn
      have hlogdiv : Nat.log b (n / b) = Nat.log b n - 1 := Nat.log_div_base b n
      simp only [Nat.toDigitsCore, hdiv, if_false]
      rw [ihx, hlogdiv]
      simp only [List.length_cons]
      omega

theorem repr_length_eq (n : Nat) : (Nat.repr n).length = Nat.log 10 n + 1 := by
  show ((Nat.toDigits 10 n).asString).length = Nat.log 10 n + 1
  unfold Nat.toDigits
  rw [show ∀ l : List Char, l.asString.length = l.length from fun _ => rfl]
  rw [toDigitsCore_len 10 (by omega) (n + 1) n [] (Nat.lt_succ_self n)]
  rfl

theorem mkCand_length (base ext : String) (n : Nat) :
    (mkCand base ext n).length = base.length + 1 + (Nat.log 10 n + 1) + ext.length := by
  unfold mkCand
  rw [String.length_append, String.length_append, String.length_append, repr_length_eq]
  rfl

theorem length_le_strMaxLen {s : String} {l : List String} (h : s ∈ l) :
    s.length ≤ strMaxLen l := by
  induction l with
  | nil => cases h
  | cons t rest ih =>
    rcases List.mem_cons.mp h with h' | h'
    · subst h'; exact Nat.le_max_left _ _
    · exact Nat.le_trans (ih h') (Nat.le_max_right _ _)

theorem mkCand_fresh (l : List String) (base ext : String) {c : Nat}
    (hc : freshBound l ≤ c) : mkCand base ext c ∉ l := by
  intro hmem
  have h1 : (mkCand base ext c).length ≤ strMaxLen l := length_le_strMaxLen hmem
  have hc' : 10 ^ strMaxLen l ≤ c := hc
  have hcpos : c ≠ 0 := by
    have hb0 : 0 < 10 ^ strMaxLen l := Nat.pow_pos (by omega)
    omega
  have hlog : strMaxLen l ≤ Nat.log 10 c :=
    (Nat.pow_le_iff_le_log (by omega) hcpos).mp hc'
  rw [mkCand_length] at h1
  omega

theorem collisionLoopF_spec (existing : List String) (base ext : String) :
    ∀ (fuel counter : Nat),
      (∃ j, j ≤ fuel ∧ mkCand base ext (counter + j) ∉ existing) →
      ∃ n, counter ≤ n ∧
        collisionLoopF existing base ext counter fuel = mkCand base ext n ∧
        mkCand base ext n ∉ existing ∧
        ∀ m, counter ≤ m → m < n → mkCand base ext m ∈ existing := by
  intro fuel
  induction fuel with
  | zero =>
    intro counter ⟨j, hj, hfresh⟩
    have hj0 : j = 0 := Nat.le_zero.mp hj
    subst hj0
    exact ⟨counter, Nat.le_refl _, rfl, hfresh, fun m hm1 hm2 => absurd hm1 (by omega)⟩
  | succ fuel ih =>
    intro counter ⟨j, hj, hfresh⟩
    by_cases hmem : mkCand base ext counter ∈ existing
    · have hj0 : j ≠ 0 := by
        intro h0; subst h0; exact hfresh hmem
      obtain ⟨n, hn1, hn2, hn3, hn4⟩ :=
        ih (counter + 1) ⟨j - 1, by omega, by
          have : counter + 1 + (j - 1) = counter + j := by omega
          rw [this]; exact hfresh⟩
      refine ⟨n, by omega, ?_, hn3, ?_⟩
      · rw [collisionLoopF, if_pos hmem]; exact hn2
      · intro m hm1 hm2
        rcases Nat.eq_or_lt_of_le hm1 with h' | h'
        · subst h'; exact hmem
        · exact hn4 m h' hm2
    · exact ⟨counter, Nat.le_refl _, by rw [collisionLoopF, if_neg hmem], hmem,
        fun m hm1 hm2 => absurd hm1 (by omega)⟩

/-- C2 (claim theorem): in commit mode, when the initially computed
destination name already exists in the category directory, the engine's
chosen destination is `stem_<n>suffix` for the least `n ≥ 1` whose
candidate does not yet exist (every earlier candidate from `n = 1` on
exists, so the loop re-checked each in turn), and that chosen destination
does not exist in the directory — the subsequent move never overwrites an
existing file. -/
theorem organize_collision_resolution (fs : FS) (name : String)
    (hcol : name ∈ (fs.mkdir (get_category name)).dirFiles (get_category name)) :
    destFor fs name ∉ (fs.mkdir (get_category name)).dirFiles (get_category name) ∧
    ∃ n, 1 ≤ n ∧
      destFor fs name = mkCand (pyStem name) (pySuffix name) n ∧
      ∀ m, 1 ≤ m → m < n →
        mkCand (pyStem name) (pySuffix name) m ∈
          (fs.mkdir (get_category name)).dirFiles (get_category name) := by
  have hex : ∃ j, j ≤ freshBound ((fs.mkdir (get_category name)).dirFiles (get_category name)) ∧
      mkCand (pyStem name) (pySuffix name) (1 + j) ∉
        (fs.mkdir (get_category name)).dirFiles (get_category name) := by
    have hpos : 1 ≤ freshBound ((fs.mkdir (get_category name)).dirFiles (get_category name)) :=
      Nat.pow_pos (by omega)
    refine ⟨freshBound ((fs.mkdir (get_category name)).dirFiles (get_category name)) - 1,
      Nat.sub_le _ _, ?_⟩
    have heq : 1 + (freshBound ((fs.mkdir (get_category name)).dirFiles (get_category name)) - 1)
        = freshBound ((fs.mkdir (get_category name)).dirFiles (get_category name)) := by omega
    rw [heq]
    exact mkCand_fresh _ _ _ (Nat.le_refl _)
  obtain ⟨n, hn1, hn2, hn3, hn4⟩ := collisionLoopF_spec
    ((fs.mkdir (get_category name)).dirFiles (get_category name))
    (pyStem name) (pySuffix name)
    (freshBound ((fs.mkdir (get_category name)).dirFiles (get_category name))) 1 hex
  have hdest : destFor fs name =
      collisionLoopF ((fs.mkdir (get_category name)).dirFiles (get_category name))
        (pyStem name) (pySuffix name) 1
        (freshBound ((fs.mkdir (get_category name)).dirFiles (get_category name))) := by
    unfold destFor
    rw [if_pos hcol]
  rw [hdest, hn2]
  exact ⟨hn3, n, hn1, rfl, hn4⟩

/-- C2 witness: a concrete collision.  The directory `Documents` already
holds `a.txt` and `a_1.txt`; moving another `a.txt` picks `a_2.txt`. -/
theorem organize_collision_resolution_witness :
    destFor ⟨["a.txt"], [("Documents", ["a.txt", "a_1.txt"])]⟩ "a.txt" ∉
      ((⟨["a.txt"], [("Documents", ["a.txt", "a_1.txt"])]⟩ : FS).mkdir
        (get_category "a.txt")).dirFiles (get_category "a.txt") ∧
    ∃ n, 1 ≤ n ∧
      destFor ⟨["a.txt"], [("Documents", ["a.txt", "a_1.txt"])]⟩ "a.txt" =
        mkCand (pyStem "a.txt") (pySuffix "a.txt") n ∧
      ∀ m, 1 ≤ m → m < n →
        mkCand (pyStem "a.txt") (pySuffix "a.txt") m ∈
          ((⟨["a.txt"], [("Documents", ["a.txt", "a_1.txt"])]⟩ : FS).mkdir
            (get_category "a.txt")).dirFiles (get_category "a.txt") :=
  organize_collision_resolution ⟨["a.txt"], [("Documents", ["a.txt", "a_1.txt"])]⟩ "a.txt"
    (by decide)

/-- C6: per-file accounting.  For any non-script entry: in preview mode
the `moved` counter is incremented and `errors` untouched; in commit mode
the same holds when the per-file operations succeed, while a per-file
exception increments `errors`, leaves `moved` and the filesystem alone,
and the loop goes on to the next entry — in particular a run never aborts:
`organize` on an existing directory always returns a result, in either
mode and for every failure pattern. -/
theorem organize_per_file_counters (fs : FS) (stats : Stats) (name : String)
    (ioFail : String → Bool) (h : name ≠ scriptName) :
    (processFile true ioFail (fs, stats) name).2.moved = stats.moved + 1 ∧
    (processFile true ioFail (fs, stats) name).2.errors = stats.errors ∧
    (ioFail name = false →
      (processFile false ioFail (fs, stats) name).2.moved = stats.moved + 1 ∧
      (processFile false ioFail (fs, stats) name).2.errors = stats.errors) ∧
    (ioFail name = true →
      (processFile false ioFail (fs, stats) name).2.errors = stats.errors + 1 ∧
      (processFile false ioFail (fs, stats) name).2.moved = stats.moved ∧
      (processFile false ioFail (fs, stats) name).1 = fs) ∧
    (∀ dryRun : Bool, ∃ r : RunResult, organize (some fs) dryRun ioFail = Except.ok r) := by
  refine ⟨?_, ?_, fun hf => ⟨?_, ?_⟩, fun hf => ⟨?_, ?_, ?_⟩, fun dryRun => ?_⟩
  · rw [processFile_preview ioFail (fs, stats) name h]
  · rw [processFile_preview ioFail (fs, stats) name h]
  · rw [processFile_commit_ok ioFail (fs, stats) name h hf]
  · rw [processFile_commit_ok ioFail (fs, stats) name h hf]
  · rw [processFile_commit_err ioFail (fs, stats) name h hf]
  · rw [processFile_commit_err ioFail (fs, stats) name h hf]
  · rw [processFile_commit_err ioFail (fs, stats) name h hf]
  · rw [organize_some]
    by_cases he : fs.rootFiles.isEmpty
    · exact ⟨⟨fs, initStats, false⟩, by rw [if_pos he]⟩
    · exact ⟨_, by rw [if_neg he]⟩

/-- C6 witness: the concrete file `b.txt` (with an `ioFail` that fails
exactly on `c.txt`, so both the success and the failure branch are
exercised at a satisfied hypothesis for `b.txt` and `c.txt`). -/
theorem organize_per_file_counters_witness :
    ((processFile true (fun n => n == "c.txt") (⟨["b.txt"], []⟩, initStats)
        "b.txt").2.moved = initStats.moved + 1 ∧
      (processFile true (fun n => n == "c.txt") (⟨["b.txt"], []⟩, initStats)
        "b.txt").2.errors = initStats.errors ∧
      ((fun n => n == "c.txt") "b.txt" = false →
        (processFile false (fun n => n == "c.txt") (⟨["b.txt"], []⟩, initStats)
          "b.txt").2.moved = initStats.moved + 1 ∧
        (processFile false (fun n => n == "c.txt") (⟨["b.txt"], []⟩, initStats)
          "b.txt").2.errors = initStats.errors) ∧
      ((fun n => n == "c.txt") "b.txt" = true →
        (processFile false (fun n => n == "c.txt") (⟨["b.txt"], []⟩, initStats)
          "b.txt").2.errors = initStats.errors + 1 ∧
        (processFile false (fun n => n == "c.txt") (⟨["b.txt"], []⟩, initStats)
          "b.txt").2.moved = initStats.moved ∧
        (processFile false (fun n => n == "c.txt") (⟨["b.txt"], []⟩, initStats)
          "b.txt").1 = ⟨["b.txt"], []⟩) ∧
      (∀ dryRun : Bool, ∃ r : RunResult,
        organize (some ⟨["b.txt"], []⟩) dryRun (fun n => n == "c.txt") = Except.ok r)) ∧
    ((processFile false (fun n => n == "c.txt") (⟨["c.txt"], []⟩, initStats)
        "c.txt").2.errors = initStats.errors + 1 ∧
      (processFile false (fun n => n == "c.txt") (⟨["c.txt"], []⟩, initStats)
        "c.txt").2.moved = initStats.moved ∧
      (processFile false (fun n => n == "c.txt") (⟨["c.txt"], []⟩, initStats)
        "c.txt").1 = ⟨["c.txt"], []⟩) :=
  ⟨organize_per_file_counters ⟨["b.txt"], []⟩ initStats "b.txt" (fun n => n == "c.txt")
      (by decide),
    (organize_per_file_counters ⟨["c.txt"], []⟩ initStats "c.txt" (fun n => n == "c.txt")
      (by decide)).2.2.2.1 (by decide)⟩

/-- C7: with no pre-existing collisions (and the per-file operations
succeeding), a preview run and a commit run over the same source report
the same `moved` count, while the preview run leaves the filesystem
exactly as it was. -/
theorem organize_preview_commit_moved_eq (fs : FS) (ioFail : String → Bool)
    (hfail : ∀ n, ioFail n = false)
    (_hcol : ∀ name ∈ fs.rootFiles, name ∉ fs.dirFiles (get_category name)) :
    ∃ rp rc : RunResult,
      organize (some fs) true ioFail = Except.ok rp ∧
      organize (some fs) false ioFail = Except.ok rc ∧
      rp.stats.moved = rc.stats.moved ∧ rp.fs = fs := by
  rw [organize_some, organize_some]
  by_cases h : fs.rootFiles.isEmpty
  · exact ⟨⟨fs, initStats, false⟩, ⟨fs, initStats, false⟩,
      by rw [if_pos h], by rw [if_pos h], rfl, rfl⟩
  · refine ⟨_, _, by rw [if_neg h], by rw [if_neg h], ?_, ?_⟩
    · show (fs.rootFiles.foldl (processFile true ioFail) (fs, initStats)).2.moved =
        (fs.rootFiles.foldl (processFile false ioFail) (fs, initStats)).2.moved
      rw [(foldl_preview ioFail fs.rootFiles (fs, initStats)).2.1,
        foldl_commit_moved ioFail fs.rootFiles (fun n _ => hfail n) (fs, initStats)]
    · exact (foldl_preview ioFail fs.rootFiles (fs, initStats)).1

/-- C7 witness: two files, no pre-existing collision. -/
theorem organize_preview_commit_moved_eq_witness :
    ∃ rp rc : RunResult,
      organize (some ⟨["a.jpg", "b.mp3"], []⟩) true (fun _ => false) = Except.ok rp ∧
      organize (some ⟨["a.jpg", "b.mp3"], []⟩) false (fun _ => false) = Except.ok rc ∧
      rp.stats.moved = rc.stats.moved ∧ rp.fs = ⟨["a.jpg", "b.mp3"], []⟩ :=
  organize_preview_commit_moved_eq ⟨["a.jpg", "b.mp3"], []⟩ (fun _ => false)
    (fun _ => rfl) (by decide)

/-- C8 (amended): running commit twice in succession, with no per-file
failures and no file named like the organizer script in the root, leaves
the root empty of regular files after the first run; the second run then
moves zero files — but it takes the empty-directory early return, so it
terminates with `moved = 0`, an unchanged filesystem, and no statistics
summary printed (rather than yielding a `moved=0` summary as the claim
states). -/
theorem organize_commit_idempotent (fs : FS) (ioFail : String → Bool)
    (hscript : scriptName ∉ fs.rootFiles) (hfail : ∀ n, ioFail n = false) :
    ∃ r1 r2 : RunResult,
      organize (some fs) false ioFail = Except.ok r1 ∧ r1.fs.rootFiles = [] ∧
      organize (some r1.fs) false ioFail = Except.ok r2 ∧
      r2.stats.moved = 0 ∧ r2.fs = r1.fs ∧ r2.summaryPrinted = false := by
  by_cases h : fs.rootFiles.isEmpty
  · have hnil : fs.rootFiles = [] := List.isEmpty_iff.mp h
    refine ⟨⟨fs, initStats, false⟩, ⟨fs, initStats, false⟩, ?_, hnil, ?_, rfl, rfl, rfl⟩
    · rw [organize_some, if_pos h]
    · rw [organize_some, if_pos h]
  · have hempty : ((fs.rootFiles.foldl (processFile false ioFail)
        (fs, initStats)).1).rootFiles = [] :=
      foldl_commit_empties ioFail fs.rootFiles fs initStats rfl
        (fun n hn => ⟨fun he => hscript (he ▸ hn), hfail n⟩)
    refine ⟨⟨(fs.rootFiles.foldl (processFile false ioFail) (fs, initStats)).1,
        (fs.rootFiles.foldl (processFile false ioFail) (fs, initStats)).2, true⟩,
      ⟨(fs.rootFiles.foldl (processFile false ioFail) (fs, initStats)).1, initStats, false⟩,
      ?_, hempty, ?_, rfl, rfl, rfl⟩
    · rw [organize_some, if_neg h]
    · rw [organize_some, if_pos (by simp [List.isEmpty_iff, hempty])]

/-- C8 witness: one ordinary file. -/
theorem organize_commit_idempotent_witness :
    ∃ r1 r2 : RunResult,
      organize (some ⟨["a.txt"], []⟩) false (fun _ => false) = Except.ok r1 ∧
      r1.fs.rootFiles = [] ∧
      organize (some r1.fs) false (fun _ => false) = Except.ok r2 ∧
      r2.stats.moved = 0 ∧ r2.fs = r1.fs ∧ r2.summaryPrinted = false :=
  organize_commit_idempotent ⟨["a.txt"], []⟩ (fun _ => false) (by decide) (fun _ => rfl)

/-- C8 counterexample: commit on a directory holding just `a.txt`, then
commit again.  The first run moves the file (`moved = 1`, summary
printed); the second run finds no root files and returns early with
`summaryPrinted = false` — it does not yield a statistics summary with
`moved = 0` as the claim states. -/
theorem organize_commit_twice_no_second_summary :
    organize (some ⟨["a.txt"], []⟩) false (fun _ => false) =
      Except.ok ⟨⟨[], [("Documents", ["a.txt"])]⟩, ⟨1, 0, 0⟩, true⟩ ∧
    organize (some ⟨[], [("Documents", ["a.txt"])]⟩) false (fun _ => false) =
      Except.ok ⟨⟨[], [("Documents", ["a.txt"])]⟩, ⟨0, 0, 0⟩, false⟩ := by
  exact ⟨rfl, rfl⟩
